import Mathlib

/-!
Verification development for the deposit-monitor / escrow repository.

The Python sources are shallowly embedded:
* `utils/address_normalizer.py` — base64 alphabets, CRC-16/CCITT, the
  user-friendly and raw address codecs, and `get_mainnet_variants`;
* `src/services/escrow_system.py` — the escrow tables and the
  `confirm_ownership_transfer` / `release_escrow_funds` /
  `handle_timeout_refund` operations;
* `src/core/monitor.py` — the working monitor's deposit loop and
  `create_user_with_wallet`;
* `src/core/production_monitor.py` — the production monitor's
  transaction pipeline (`_process_transaction`, `_find_user_by_transaction`,
  `_store_transaction`, `_update_user_balance`, `_load_initial_state`).

Python strings are modelled as `List Char`, byte strings as `List Nat`
(each entry < 256), SQL timestamps as `Nat`, and monetary amounts as `ℚ`
(the exact value of Python's `value / 1_000_000_000`).  Database tables are
lists of rows; `UNIQUE` columns are reflected in the duplicate checks the
code itself performs.  Pure audit columns that no claim reads
(`raw_data`, `block_hash`, `memo`, log tables) are omitted.
-/

abbrev Str := List Char

/-! ### Address normalizer (`utils/address_normalizer.py`) -/

/-- The standard base64 alphabet used by `base64.b64encode`. -/
def stdAlphabet : List Char :=
  "ABCDEFGHIJKLMNOPQRSTUVWXYZabcdefghijklmnopqrstuvwxyz0123456789+/".toList

/-- The URL-safe base64 alphabet used by `base64.urlsafe_b64encode`. -/
def urlAlphabet : List Char :=
  "ABCDEFGHIJKLMNOPQRSTUVWXYZabcdefghijklmnopqrstuvwxyz0123456789-_".toList

def sextetToCharStd (n : Nat) : Char := stdAlphabet.getD n 'A'

def sextetToCharUrl (n : Nat) : Char := urlAlphabet.getD n 'A'

/-- Decode one standard-alphabet base64 character to its 6-bit value. -/
def decStd (c : Char) : Option Nat := stdAlphabet.findIdx? (· == c)

/-- Decode one URL-safe-alphabet base64 character to its 6-bit value. -/
def decUrl (c : Char) : Option Nat := urlAlphabet.findIdx? (· == c)

/-- Bytes to base64 sextets, with the partial final group that
`base64.b64encode` pads (the padding itself is stripped by the source's
`rstrip("=")`, so no `'='` appears here). -/
def bytesToSextets : List Nat → List Nat
  | [] => []
  | [a] => [a / 4, a % 4 * 16]
  | [a, b] => [a / 4, a % 4 * 16 + b / 16, b % 16 * 4]
  | a :: b :: c :: rest =>
      a / 4 :: (a % 4 * 16 + b / 16) :: (b % 16 * 4 + c / 64) :: c % 64 :: bytesToSextets rest

/-- `b64std_encode` from the source: standard base64, `"="` padding stripped. -/
def b64std_encode (data : List Nat) : Str := (bytesToSextets data).map sextetToCharStd

/-- `b64url_encode` from the source: URL-safe base64, `"="` padding stripped. -/
def b64url_encode (data : List Nat) : Str := (bytesToSextets data).map sextetToCharUrl

/-- Strict base64 group decoding (Python `base64.b64decode` with
`validate=True` after padding has been fixed): the input is consumed in
groups of four characters; `'='` may appear only as the final one or two
characters.  `none` models the raised `binascii.Error`. -/
def b64decodeGroups (dec : Char → Option Nat) : Str → Option (List Nat)
  | [] => some []
  | c1 :: c2 :: c3 :: c4 :: rest =>
    match dec c1, dec c2 with
    | some s1, some s2 =>
      if c3 = '=' ∧ c4 = '=' ∧ rest = [] then
        some [s1 * 4 + s2 / 16]
      else
        match dec c3 with
        | some s3 =>
          if c4 = '=' ∧ rest = [] then
            some [s1 * 4 + s2 / 16, s2 % 16 * 16 + s3 / 4]
          else
            match dec c4 with
            | some s4 =>
              (b64decodeGroups dec rest).map
                (fun bs => (s1 * 4 + s2 / 16) :: (s2 % 16 * 16 + s3 / 4) ::
                  (s3 % 4 * 64 + s4) :: bs)
            | none => none
        | none => none
    | _, _ => none
  | _ => none

/-- `fix_padding` from the source. -/
def fix_padding (s : Str) : Str := s ++ List.replicate ((4 - s.length % 4) % 4) '='

/-- The character translation `s.replace("-", "+").replace("_", "/")`. -/
def toStdChar (c : Char) : Char := if c = '-' then '+' else if c = '_' then '/' else c

def dashUnderscoreToStd (s : Str) : Str := s.map toStdChar

/-- Python `base64.urlsafe_b64decode` without validation: translate the
URL-safe characters to the standard alphabet, discard every character that
is neither a standard-alphabet character nor `'='`, then decode strictly. -/
def b64_urlsafe_lenient (s : Str) : Option (List Nat) :=
  b64decodeGroups decStd
    ((dashUnderscoreToStd s).filter (fun c => (decStd c).isSome || c == '='))

/-- `b64_decode_try` from the source: try the standard alphabet on the
dash/underscore-translated input, then on the raw input, then fall back to
the lenient URL-safe decode.  `none` models an uncaught decode exception. -/
def b64_decode_try (s : Str) : Option (List Nat) :=
  match b64decodeGroups decStd (fix_padding (dashUnderscoreToStd s)) with
  | some r => some r
  | none =>
    match b64decodeGroups decStd (fix_padding s) with
    | some r => some r
    | none => b64_urlsafe_lenient (fix_padding s)

/-- One shift step of the CRC-16/CCITT loop body. -/
def crcShiftBit (crc : Nat) : Nat :=
  if crc &&& 0x8000 ≠ 0 then ((crc <<< 1) &&& 0xFFFF) ^^^ 0x1021
  else (crc <<< 1) &&& 0xFFFF

/-- Fold one input byte into the CRC (eight shift steps). -/
def crc16_update (crc b : Nat) : Nat := crcShiftBit^[8] (crc ^^^ ((b <<< 8) &&& 0xFFFF))

/-- `crc16_ccitt` from the source: polynomial 0x1021, initial value 0,
no reflection, no xor-out. -/
def crc16_ccitt (data : List Nat) : Nat := data.foldl crc16_update 0

/-- `parse_user_friendly` from the source.  Returns the signed workchain
byte, the 32-byte account id, and whether the embedded checksum matches
the CRC of the first 34 bytes; `none` models a raised `ValueError`. -/
def parse_user_friendly (addr : Str) : Option (Int × List Nat × Bool) :=
  match b64_decode_try addr with
  | none => none
  | some raw =>
    if raw.length = 36 then
      let wcByte := raw.getD 1 0
      let wc : Int := if wcByte < 128 then (wcByte : Int) else (wcByte : Int) - 256
      let account := (raw.drop 2).take 32
      let checksum := raw.getD 34 0 * 256 + raw.getD 35 0
      let calcCrc := crc16_ccitt (raw.take 34)
      some (wc, account, checksum == calcCrc)
    else none

def digitVal? (c : Char) : Option Nat :=
  if '0' ≤ c ∧ c ≤ '9' then some (c.toNat - '0'.toNat) else none

/-- Python `int(s, 10)` restricted to an optional sign and decimal digits. -/
def parseDigits? (ds : Str) : Option Nat :=
  match ds with
  | [] => none
  | _ => ds.foldl (fun acc c =>
      match acc, digitVal? c with
      | some n, some d => some (n * 10 + d)
      | _, _ => none) (some 0)

def parseDecimal? (s : Str) : Option Int :=
  match s with
  | '-' :: ds => (parseDigits? ds).map (fun n => -(n : Int))
  | '+' :: ds => (parseDigits? ds).map (fun n => (n : Int))
  | ds => (parseDigits? ds).map (fun n => (n : Int))

def hexDigitVal? (c : Char) : Option Nat :=
  if '0' ≤ c ∧ c ≤ '9' then some (c.toNat - '0'.toNat)
  else if 'a' ≤ c ∧ c ≤ 'f' then some (c.toNat - 'a'.toNat + 10)
  else if 'A' ≤ c ∧ c ≤ 'F' then some (c.toNat - 'A'.toNat + 10)
  else none

/-- `bytes.fromhex` on an even-length hex string. -/
def hexPairsToBytes? : Str → Option (List Nat)
  | [] => some []
  | c1 :: c2 :: rest =>
    match hexDigitVal? c1, hexDigitVal? c2, hexPairsToBytes? rest with
    | some h, some l, some bs => some ((h * 16 + l) :: bs)
    | _, _, _ => none
  | _ => none

/-- `addr.split(":", 1)`. -/
def splitAtFirstColon (s : Str) : Option (Str × Str) :=
  match s.findIdx? (· == ':') with
  | none => none
  | some i => some (s.take i, s.drop (i + 1))

/-- `parse_raw` from the source: `workchain:hex` with exactly 64 hex
characters; `none` models a raised `ValueError`. -/
def parse_raw (addr : Str) : Option (Int × List Nat) :=
  match splitAtFirstColon addr with
  | none => none
  | some (wcStr, hexPart) =>
    match parseDecimal? wcStr with
    | none => none
    | some wc =>
      if hexPart.length = 64 then (hexPairsToBytes? hexPart).map (fun bs => (wc, bs))
      else none

/-- `build_friendly` from the source: tag byte, workchain byte (`wc & 0xFF`),
32-byte account, big-endian CRC-16 checksum; returns the standard-base64 and
URL-safe-base64 renderings. -/
def build_friendly (wc : Int) (account : List Nat) (bounceable testnet : Bool) :
    Str × Str :=
  let tag := (if bounceable then 0x11 else 0x51) ||| (if testnet then 0x80 else 0)
  let body := tag :: (wc % 256).toNat :: account
  let crc := crc16_ccitt body
  let full := body ++ [crc / 256, crc % 256]
  (b64std_encode full, b64url_encode full)

/-- The character guard for the raw form in `get_mainnet_variants`. -/
def rawGuardChars : Str := "0123456789:-abcdefABCDEF".toList

/-- `get_mainnet_variants` from the source.  Parses the input as raw or
user-friendly, returns the four mainnet renderings with duplicates removed
(Python's `list(set(...))`; the set's iteration order is arbitrary, so
properties below depend only on membership), and falls back to the
singleton `[address]` when parsing fails. -/
def get_mainnet_variants (address : Str) : List Str :=
  let parsed : Option (Int × List Nat) :=
    if address.contains ':' && address.all (fun c => rawGuardChars.contains c) then
      parse_raw address
    else
      (parse_user_friendly address).map (fun p => (p.1, p.2.1))
  match parsed with
  | none => [address]
  | some (wc, account) =>
    let b := build_friendly wc account true false
    let n := build_friendly wc account false false
    [b.1, b.2, n.1, n.2].dedup

/-! ### Escrow engine (`src/services/escrow_system.py`)

Rows of the `escrow_transactions` and `channel_listings` tables.  The
`transaction_id` and `listing_id` columns are `UNIQUE`/primary keys in the
schema; updates therefore touch at most the single matching row.  ISO
timestamp strings (compared lexicographically by SQLite, i.e.
chronologically) are modelled as `Nat`; the current `datetime.now()` is an
explicit `now` argument. -/

structure EscrowTx where
  transaction_id : Str
  listing_id : Str
  buyer_id : Int
  seller_id : Int
  amount : ℚ
  buyer_wallet : Str
  escrow_address : Str
  payment_hash : Option Str
  status : Str
  buyer_confirmed : Bool
  seller_confirmed : Bool
  timeout_at : Nat
  payment_confirmed_at : Option Nat
  buyer_confirmed_at : Option Nat
  seller_confirmed_at : Option Nat
  completed_at : Option Nat
  refunded_at : Option Nat
deriving DecidableEq

structure Listing where
  listing_id : Str
  seller_id : Int
  price : ℚ
  status : Str
  sold_at : Option Nat
deriving DecidableEq

structure EscrowDB where
  escrows : List EscrowTx
  listings : List Listing
deriving DecidableEq

structure EscrowResult where
  success : Bool
  message : Str
deriving DecidableEq

/-- `SELECT * FROM escrow_transactions WHERE transaction_id = ?` (first row). -/
def findTx (es : List EscrowTx) (tid : Str) : Option EscrowTx :=
  es.find? (fun t => t.transaction_id == tid)

/-- `SELECT * FROM channel_listings WHERE listing_id = ?` (first row). -/
def findListing (ls : List Listing) (lid : Str) : Option Listing :=
  ls.find? (fun l => l.listing_id == lid)

/-- The flag `UPDATE` in `confirm_ownership_transfer`: the buyer branch when
`role == 'buyer'`, the seller branch otherwise. -/
def setConfirmFlag (es : List EscrowTx) (tid : Str) (role : Str) (now : Nat) :
    List EscrowTx :=
  if role = "buyer".toList then
    es.map (fun t => if t.transaction_id == tid then
      { t with buyer_confirmed := true, buyer_confirmed_at := some now } else t)
  else
    es.map (fun t => if t.transaction_id == tid then
      { t with seller_confirmed := true, seller_confirmed_at := some now } else t)

/-- `release_escrow_funds`: set the transaction to `completed`, then mark the
listing whose id the (sub)query reads from the escrow row as `sold`.  Both
updates run on the same cursor and are committed together by the caller. -/
def release_escrow_funds (db : EscrowDB) (tid : Str) (now : Nat) :
    EscrowDB × EscrowResult :=
  let es2 := db.escrows.map (fun t => if t.transaction_id == tid then
    { t with status := "completed".toList, completed_at := some now } else t)
  let ls2 := match (findTx es2 tid).map (fun t => t.listing_id) with
    | some lid => db.listings.map (fun l => if l.listing_id == lid then
        { l with status := "sold".toList, sold_at := some now } else l)
    | none => db.listings
  (⟨es2, ls2⟩, ⟨true, "Transaction completed! Funds released to seller.".toList⟩)

/-- `confirm_ownership_transfer` from the source: fetch the row, require
`payment_confirmed`, check the claimed role's identity, set the matching
confirmation flag, re-read the row, and release the funds when both flags
are set. -/
def confirm_ownership_transfer (db : EscrowDB) (tid : Str) (confirmer_id : Int)
    (role : Str) (now : Nat) : EscrowDB × EscrowResult :=
  match findTx db.escrows tid with
  | none => (db, ⟨false, "Transaction not found".toList⟩)
  | some tx =>
    if tx.status ≠ "payment_confirmed".toList then
      (db, ⟨false, "Payment not confirmed yet".toList⟩)
    else if role = "buyer".toList ∧ tx.buyer_id ≠ confirmer_id then
      (db, ⟨false, "Invalid buyer confirmation".toList⟩)
    else if role = "seller".toList ∧ tx.seller_id ≠ confirmer_id then
      (db, ⟨false, "Invalid seller confirmation".toList⟩)
    else
      let es1 := setConfirmFlag db.escrows tid role now
      match findTx es1 tid with
      | none => ({ db with escrows := es1 }, ⟨false, "Transaction not found".toList⟩)
      | some utx =>
        if utx.buyer_confirmed && utx.seller_confirmed then
          release_escrow_funds { db with escrows := es1 } tid now
        else
          ({ db with escrows := es1 },
           ⟨true, "confirmation recorded. Waiting for other party.".toList⟩)

/-- `handle_timeout_refund` from the source: one conditional `UPDATE` whose
`WHERE` clause requires the id, a `pending_payment`/`payment_confirmed`
status and an expired deadline; success iff `rowcount > 0`. -/
def handle_timeout_refund (db : EscrowDB) (tid : Str) (now : Nat) :
    EscrowDB × EscrowResult :=
  let eligible := fun (t : EscrowTx) =>
    t.transaction_id == tid &&
      (t.status == "pending_payment".toList || t.status == "payment_confirmed".toList) &&
      decide (t.timeout_at < now)
  let es2 := db.escrows.map (fun t => if eligible t then
    { t with status := "refunded".toList, refunded_at := some now } else t)
  if 0 < (db.escrows.filter eligible).length then
    ({ db with escrows := es2 }, ⟨true, "Transaction refunded due to timeout".toList⟩)
  else
    (db, ⟨false, "Transaction not eligible for refund".toList⟩)

/-! ### Working monitor (`src/core/monitor.py`)

`users`, `user_balances`, `transactions` and the `system_status` checkpoint
of the working monitor.  The loop variable `last_lt` is written to
`system_status.last_logical_time` at the end of every cycle and re-read at
startup, so the single `last_lt` field models both (write-through).  The
hash fallback `f'tx_{int(time.time())}_{tx_lt}'` is modelled without the
wall-clock component. -/

structure MUser where
  id : Nat
  telegram_id : Str
  main_wallet_address : Str
  variant_address_1 : Str
  variant_address_2 : Str
  variant_address_3 : Str
  variant_address_4 : Str
deriving DecidableEq

structure MBalance where
  user_id : Nat
  current_balance : ℚ
  total_deposited : ℚ
  deposit_count : Nat
deriving DecidableEq

structure MTxRow where
  hash : Str
  from_address : Str
  to_address : Str
  amount : ℚ
  user_id : Option Nat
  logical_time : Nat
deriving DecidableEq

/-- One transaction as returned by the chain indexer: `transaction_id.lt`,
`transaction_id.hash` (absent modelled as `none`), the truthiness of
`in_msg`, its `source`/`destination`/`value` fields (an absent key is
`none`, distinct from the empty string), and the optional top-level fee. -/
structure RawTx where
  lt : Nat
  hash : Option Str
  in_msg_present : Bool
  source : Option Str
  destination : Option Str
  value : Int
  fee : Option Int
deriving DecidableEq

structure MonitorState where
  users : List MUser
  balances : List MBalance
  transactions : List MTxRow
  last_lt : Option Nat
deriving DecidableEq

def WEBSITE_WALLET : Str := "UQDrY5iulWs_MyWTP9JSGedWBzlbeRmhCBoqsSaNiSLOs315".toList

/-- The five-column address match used by the user lookup queries. -/
def userMatches (u : MUser) (addr : Str) : Bool :=
  u.main_wallet_address == addr || u.variant_address_1 == addr ||
  u.variant_address_2 == addr || u.variant_address_3 == addr ||
  u.variant_address_4 == addr

def findUserByAddress (users : List MUser) (addr : Str) : Option MUser :=
  users.find? (fun u => userMatches u addr)

/-- The `INSERT OR REPLACE INTO user_balances` of the deposit loop: the
`COALESCE` subqueries add the deposit onto the existing row, or create the
row with the deposit as its first credit. -/
def creditBalance (bs : List MBalance) (uid : Nat) (amt : ℚ) : List MBalance :=
  match bs.find? (fun b => b.user_id == uid) with
  | some b =>
    bs.map (fun x => if x.user_id == uid then
      ⟨uid, b.current_balance + amt, b.total_deposited + amt, b.deposit_count + 1⟩ else x)
  | none => bs ++ [⟨uid, amt, amt, 1⟩]

/-- The in-loop checkpoint advance
`if not last_lt or tx_lt > last_lt: last_lt = tx_lt`. -/
def advanceLastLt (o : Option Nat) (lt : Nat) : Option Nat :=
  match o with
  | none => some lt
  | some l => if l < lt then some lt else some l

/-- The per-transaction body of `monitoring_loop`: skip already-seen
logical times, skip a falsy `in_msg` or an `''` source, skip non-positive
values; otherwise look the sender's variants up against the users table,
insert the transaction and credit the balance on a first-seen hash for a
matched user, and finally advance the in-loop `last_lt`. -/
def processTx (deposit : Str) (st : MonitorState) (tx : RawTx) : MonitorState :=
  if (match st.last_lt with | some l => decide (tx.lt ≤ l) | none => false) then st
  else if !tx.in_msg_present || tx.source == some [] then st
  else if tx.value ≤ 0 then st
  else
    let sender := tx.source.getD []
    let value_ton : ℚ := (tx.value : ℚ) / 1000000000
    let variants := get_mainnet_variants sender
    let st1 : MonitorState :=
      match variants.findSome? (fun v => findUserByAddress st.users v) with
      | some u =>
        let tx_hash := tx.hash.getD ("tx_".toList ++ (toString tx.lt).toList)
        if (st.transactions.find? (fun r => r.hash == tx_hash)).isSome then st
        else
          { st with
            transactions :=
              st.transactions ++ [⟨tx_hash, sender, deposit, value_ton, some u.id, tx.lt⟩],
            balances := creditBalance st.balances u.id value_ton }
      | none => st
    { st1 with last_lt := advanceLastLt st1.last_lt tx.lt }

/-- One polling cycle of `monitoring_loop` over a fetched batch; the final
state's `last_lt` is what the end-of-cycle `UPDATE system_status` stores. -/
def monitoringCycle (st : MonitorState) (txs : List RawTx) : MonitorState :=
  txs.foldl (processTx WEBSITE_WALLET) st

/-- The `AUTOINCREMENT` id for a fresh `users` row. -/
def nextUserId (users : List MUser) : Nat := (users.map (fun u => u.id)).foldl max 0 + 1

structure CreateUserResult where
  user_id : Nat
  telegram_id : Str
  main : Str
  v1 : Str
  v2 : Str
  v3 : Str
  v4 : Str
  already_existed : Bool
deriving DecidableEq

/-- `create_user_with_wallet` from the source: compute the variants, look
the literal presented string up against the five address columns, return
the existing user on a hit, otherwise insert a fresh user row (main address
plus the first four variants, falling back to the main address) and a zero
balance row. -/
def create_user_with_wallet (st : MonitorState) (wallet_address : Str)
    (telegram_id? : Option Str) : MonitorState × CreateUserResult :=
  let variants := get_mainnet_variants wallet_address
  match st.users.find? (fun u => userMatches u wallet_address) with
  | some u =>
    (st, ⟨u.id, u.telegram_id, u.main_wallet_address, u.variant_address_1,
      u.variant_address_2, u.variant_address_3, u.variant_address_4, true⟩)
  | none =>
    let tid := telegram_id?.getD ("user_".toList ++ wallet_address.take 10)
    let v1 := variants.getD 0 wallet_address
    let v2 := variants.getD 1 wallet_address
    let v3 := variants.getD 2 wallet_address
    let v4 := variants.getD 3 wallet_address
    let uid := nextUserId st.users
    ({ st with
       users := st.users ++ [⟨uid, tid, wallet_address, v1, v2, v3, v4⟩],
       balances := st.balances ++ [⟨uid, 0, 0, 0⟩] },
     ⟨uid, tid, wallet_address, v1, v2, v3, v4, false⟩)

/-! ### Production monitor (`src/core/production_monitor.py`)

Rows of the production schema (`database/production_db.py`): the
`transactions` table keys on `tx_hash UNIQUE` and stamps
`processed_at DEFAULT (datetime('now'))`; `user_balances` carries
`balance`/`available_balance`.  The in-memory `processed_transactions`
set, the carried `last_logical_time` (written through to `system_status`
by `_update_system_status`) and the tables form the state.  The optional
`users` statistics columns (`total_deposited` etc.) are absent from the
working schema the monitor runs against (`PRAGMA table_info` guard), so
that update is a no-op and is not modelled. -/

structure PTxRow where
  user_id : Option Nat
  tx_hash : Str
  from_address : Str
  to_address : Str
  amount : ℚ
  fee : ℚ
  logical_time : Nat
  processed_at : Nat
deriving DecidableEq

structure PBalance where
  user_id : Nat
  balance : ℚ
  available_balance : ℚ
deriving DecidableEq

structure PState where
  users : List MUser
  transactions : List PTxRow
  balances : List PBalance
  processed : List Str
  last_logical_time : Nat
deriving DecidableEq

/-- The record `_process_transaction` builds for qualifying transactions. -/
structure PTx where
  tx_hash : Str
  from_address : Str
  to_address : Str
  amount : ℚ
  fee : ℚ
  logical_time : Nat
deriving DecidableEq

/-- `_process_transaction` from the source: drop a missing/empty hash, an
already-processed hash, a falsy `in_msg`, a wrong destination or a
non-positive value; otherwise remember the hash in the processed set and
extract the deposit record.  An absent `source` key becomes the empty
string — there is no empty-sender filter here. -/
def p_process_transaction (st : PState) (tx : RawTx) (deposit : Str) :
    PState × Option PTx :=
  match tx.hash with
  | none => (st, none)
  | some h =>
    if h = [] then (st, none)
    else if st.processed.contains h then (st, none)
    else if !tx.in_msg_present then (st, none)
    else
      let source := tx.source.getD []
      let destination := tx.destination.getD []
      if destination ≠ deposit ∨ tx.value ≤ 0 then (st, none)
      else
        let amount : ℚ := (tx.value : ℚ) / 1000000000
        let fee : ℚ := match tx.fee with
          | some f => (f : ℚ) / 1000000000
          | none => 0
        ({ st with processed := st.processed ++ [h] },
         some ⟨h, source, destination, amount, fee, tx.lt⟩)

/-- `_find_user_by_transaction`: direct five-column match on the literal
sender string (no variant expansion in the production monitor). -/
def p_find_user (st : PState) (from_address : Str) : Option Nat :=
  (st.users.find? (fun u => userMatches u from_address)).map (fun u => u.id)

/-- `_update_user_balance`: read the current row, add the amount, write
both `balance` and `available_balance`, or insert a fresh row. -/
def p_update_user_balance (st : PState) (uid : Nat) (amount : ℚ) : PState :=
  match st.balances.find? (fun b => b.user_id == uid) with
  | some b =>
    let nb := b.balance + amount
    { st with balances := st.balances.map (fun x => if x.user_id == uid then
        { x with balance := nb, available_balance := nb } else x) }
  | none => { st with balances := st.balances ++ [⟨uid, amount, amount⟩] }

/-- `_store_transaction`: `INSERT OR IGNORE` keyed on `tx_hash`, then —
whether or not the insert was ignored — update the user's balance when a
user was matched.  (`record_audit_event` appends to a log no claim reads.) -/
def p_store_transaction (st : PState) (ptx : PTx) (user_id : Option Nat)
    (now : Nat) : PState :=
  let st1 : PState :=
    if (st.transactions.find? (fun r => r.tx_hash == ptx.tx_hash)).isSome then st
    else { st with transactions := st.transactions ++
      [⟨user_id, ptx.tx_hash, ptx.from_address, ptx.to_address, ptx.amount,
        ptx.fee, ptx.logical_time, now⟩] }
  match user_id with
  | some uid => p_update_user_balance st1 uid ptx.amount
  | none => st1

/-- The per-transaction body of `_perform_monitoring_check`. -/
def p_monitor_step (deposit : Str) (now : Nat) (st : PState) (tx : RawTx) : PState :=
  match p_process_transaction st tx deposit with
  | (st1, none) => st1
  | (st1, some ptx) =>
    let uid := p_find_user st1 ptx.from_address
    let st2 := p_store_transaction st1 ptx uid now
    if st2.last_logical_time < ptx.logical_time then
      { st2 with last_logical_time := ptx.logical_time }
    else st2

/-- One monitoring check over a fetched batch. -/
def p_perform_monitoring_check (deposit : Str) (now : Nat) (st : PState)
    (txs : List RawTx) : PState :=
  txs.foldl (p_monitor_step deposit now) st

/-- `_load_initial_state` after a restart: `last_logical_time` is re-read
from `system_status`, and the processed set is rebuilt from the hashes of
transactions whose `processed_at` lies within the last hour
(`processed_at > datetime('now', '-1 hour')`). -/
def p_load_initial_state (st : PState) (now : Nat) : PState :=
  let recent := st.transactions.filter (fun r => decide (now < r.processed_at + 3600))
  { st with processed := recent.map (fun r => r.tx_hash) }

/-! ### Concrete fixtures used by the claim instances -/

def c1tx : EscrowTx :=
  ⟨"t1".toList, "L1".toList, 1, 2, 10, "w1".toList, "esc1".toList, some "0xabc".toList,
    "payment_confirmed".toList, false, true, 100, some 10, none, some 20, none, none⟩

def c1listing : Listing := ⟨"L1".toList, 2, 10, "active".toList, none⟩

def c8tx : EscrowTx :=
  ⟨"t8".toList, "L8".toList, 3, 4, 5, "w8".toList, "esc8".toList, none,
    "pending_payment".toList, false, false, 100, none, none, none, none, none⟩

def c10tx : EscrowTx :=
  ⟨"t10".toList, "L10".toList, 7, 8, 5, "w10".toList, "esc10".toList, none,
    "payment_confirmed".toList, false, false, 100, none, none, none, none, none⟩

def c3tx : RawTx := ⟨5, some "h3".toList, true, some "S3".toList, none, 1000000000, none⟩

def c4tx : RawTx := ⟨9, some "h4".toList, true, some "S4".toList, none, 2000000000, none⟩

def c9tx : RawTx := ⟨7, some "h9".toList, true, none, some "DEP9".toList, 1000000000, none⟩

def c2user : MUser :=
  ⟨1, "tg1".toList, "ADDR".toList, "V1".toList, "V2".toList, "V3".toList, "V4".toList⟩

def c2tx : RawTx :=
  ⟨5, some "h1".toList, true, some "ADDR".toList, some "DEP".toList, 2000000000, none⟩

def c2first : PState := p_perform_monitoring_check "DEP".toList 0 ⟨[c2user], [], [], [], 0⟩ [c2tx]

def c2after : PState :=
  p_perform_monitoring_check "DEP".toList 7200 (p_load_initial_state c2first 7200) [c2tx]

def c7zero : List Nat := List.replicate 32 0

def c7friendly : Str := (build_friendly 0 c7zero true false).1

def c7raw : Str :=
  "0:0000000000000000000000000000000000000000000000000000000000000000".toList

def c7st1 : MonitorState := (create_user_with_wallet ⟨[], [], [], none⟩ c7friendly none).1

def c7st2 : MonitorState := (create_user_with_wallet c7st1 c7raw none).1

def c7u1 : MUser :=
  ⟨1, "user_".toList ++ c7friendly.take 10, c7friendly,
    (get_mainnet_variants c7friendly).getD 0 c7friendly,
    (get_mainnet_variants c7friendly).getD 1 c7friendly,
    (get_mainnet_variants c7friendly).getD 2 c7friendly,
    (get_mainnet_variants c7friendly).getD 3 c7friendly⟩

/-! ### Helper lemmas -/

/-- `find?` commutes with mapping a function that does not change the
predicate's verdict. -/
theorem find?_comm_map {α : Type} (g : α → α) (p : α → Bool) (l : List α)
    (h : ∀ x, p (g x) = p x) : (l.map g).find? p = (l.find? p).map g := by
  induction l with
  | nil => rfl
  | cons a t ih =>
    simp only [List.map_cons]
    cases hpa : p a
    · rw [List.find?_cons_of_neg _ (by rw [h, hpa]; exact Bool.false_ne_true),
        List.find?_cons_of_neg _ (by rw [hpa]; exact Bool.false_ne_true), ih]
    · rw [List.find?_cons_of_pos _ (by rw [h]; exact hpa),
        List.find?_cons_of_pos _ hpa, Option.map_some']

/-- Row updates keyed on `transaction_id` commute with the row lookup. -/
theorem findTx_map (es : List EscrowTx) (g : EscrowTx → EscrowTx) (tid : Str)
    (h : ∀ t, (g t).transaction_id = t.transaction_id) :
    findTx (es.map g) tid = (findTx es tid).map g :=
  find?_comm_map g _ es (fun t => by simp [h])

/-- Row updates keyed on `listing_id` commute with the listing lookup. -/
theorem findListing_map (ls : List Listing) (g : Listing → Listing) (lid : Str)
    (h : ∀ x, (g x).listing_id = x.listing_id) :
    findListing (ls.map g) lid = (findListing ls lid).map g :=
  find?_comm_map g _ ls (fun x => by simp [h])

/-- Case analysis of the checkpoint advance. -/
theorem advanceLastLt_cases (o : Option Nat) (n : Nat) :
    advanceLastLt o n = o ∨
    (advanceLastLt o n = some n ∧ ∀ l, o = some l → l ≤ n) := by
  cases o with
  | none => exact Or.inr ⟨rfl, fun l h => by cases h⟩
  | some l =>
    by_cases h : l < n
    · exact Or.inr ⟨by simp [advanceLastLt, h], fun l2 h2 => by cases h2; exact Nat.le_of_lt h⟩
    · exact Or.inl (by simp [advanceLastLt, h])

/-- One loop step either leaves `last_lt` alone or sets it to the observed
transaction's `lt`, never decreasing it. -/
theorem processTx_last_lt (d : Str) (st : MonitorState) (tx : RawTx) :
    (processTx d st tx).last_lt = st.last_lt ∨
    ((processTx d st tx).last_lt = some tx.lt ∧
      ∀ l, st.last_lt = some l → l ≤ tx.lt) := by
  unfold processTx
  split
  · exact Or.inl rfl
  split
  · exact Or.inl rfl
  split
  · exact Or.inl rfl
  dsimp only
  rcases hfs : (get_mainnet_variants (tx.source.getD [])).findSome?
      (fun v => findUserByAddress st.users v) with _ | u
  · exact advanceLastLt_cases st.last_lt tx.lt
  · rw [apply_ite (fun s : MonitorState => s.last_lt)]
    dsimp only
    rw [ite_self]
    exact advanceLastLt_cases st.last_lt tx.lt

/-- Each standard-alphabet character decodes back to its sextet. -/
theorem decStd_sextet : ∀ s : Fin 64, decStd (sextetToCharStd s.1) = some s.1 := by decide

/-- Dash/underscore translation maps the URL-safe alphabet onto the
standard alphabet. -/
theorem toStdChar_url : ∀ s : Fin 64,
    toStdChar (sextetToCharUrl s.1) = sextetToCharStd s.1 := by decide

/-- Dash/underscore translation fixes the standard alphabet. -/
theorem toStdChar_std : ∀ s : Fin 64,
    toStdChar (sextetToCharStd s.1) = sextetToCharStd s.1 := by decide

/-- No standard-alphabet character is the padding character. -/
theorem sextetToCharStd_ne_pad : ∀ s : Fin 64, sextetToCharStd s.1 ≠ '=' := by decide

/-- Sextets of in-range bytes are in range. -/
theorem bytesToSextets_lt : ∀ (bs : List Nat), (∀ x ∈ bs, x < 256) →
    ∀ s ∈ bytesToSextets bs, s < 64
  | [], _, s, hs => by simp [bytesToSextets] at hs
  | [a], h, s, hs => by
    have ha := h a (by simp)
    simp [bytesToSextets] at hs
    rcases hs with h1 | h1 <;> omega
  | [a, b], h, s, hs => by
    have ha := h a (by simp)
    have hb := h b (by simp)
    simp [bytesToSextets] at hs
    rcases hs with h1 | h1 | h1 <;> omega
  | a :: b :: c :: rest, h, s, hs => by
    have ha := h a (by simp)
    have hb := h b (by simp)
    have hc := h c (by simp)
    simp only [bytesToSextets, List.mem_cons] at hs
    rcases hs with h1 | h1 | h1 | h1 | h1
    · omega
    · omega
    · omega
    · omega
    · exact bytesToSextets_lt rest
        (fun x hx => h x (by simp only [List.mem_cons] at hx ⊢; tauto)) s h1

/-- A byte string of length divisible by three encodes without padding. -/
theorem bytesToSextets_len4 : ∀ (bs : List Nat), bs.length % 3 = 0 →
    (bytesToSextets bs).length % 4 = 0
  | [], _ => rfl
  | [a], h3 => absurd h3 (by simp)
  | [a, b], h3 => absurd h3 (by simp)
  | a :: b :: c :: rest, h3 => by
    have h3' : rest.length % 3 = 0 := by simp [List.length_cons] at h3; omega
    have ih := bytesToSextets_len4 rest h3'
    simp only [bytesToSextets, List.length_cons]
    omega

/-- Strictly decoding a padding-free standard-base64 encoding of a byte
string whose length is divisible by three recovers the bytes. -/
theorem decode_encode_std : ∀ (bs : List Nat), (∀ x ∈ bs, x < 256) → bs.length % 3 = 0 →
    b64decodeGroups decStd (b64std_encode bs) = some bs
  | [], _, _ => rfl
  | [a], _, h3 => absurd h3 (by simp)
  | [a, b], _, h3 => absurd h3 (by simp)
  | a :: b :: c :: rest, h, h3 => by
    have ha := h a (by simp)
    have hb := h b (by simp)
    have hc := h c (by simp)
    have h3' : rest.length % 3 = 0 := by simp [List.length_cons] at h3; omega
    have ih := decode_encode_std rest
      (fun x hx => h x (by simp only [List.mem_cons] at hx ⊢; tauto)) h3'
    have l1 : a / 4 < 64 := by omega
    have l2 : a % 4 * 16 + b / 16 < 64 := by omega
    have l3 : b % 16 * 4 + c / 64 < 64 := by omega
    have l4 : c % 64 < 64 := by omega
    have d1 := decStd_sextet ⟨a / 4, l1⟩
    have d2 := decStd_sextet ⟨a % 4 * 16 + b / 16, l2⟩
    have d3 := decStd_sextet ⟨b % 16 * 4 + c / 64, l3⟩
    have d4 := decStd_sextet ⟨c % 64, l4⟩
    have n3 := sextetToCharStd_ne_pad ⟨b % 16 * 4 + c / 64, l3⟩
    have n4 := sextetToCharStd_ne_pad ⟨c % 64, l4⟩
    have henc : b64std_encode (a :: b :: c :: rest) =
        sextetToCharStd (a / 4) :: sextetToCharStd (a % 4 * 16 + b / 16) ::
        sextetToCharStd (b % 16 * 4 + c / 64) :: sextetToCharStd (c % 64) ::
        b64std_encode rest := by
      simp [b64std_encode, bytesToSextets]
    rw [henc, b64decodeGroups, d1, d2]
    dsimp only
    rw [if_neg (fun hcond => n3 hcond.1), d3]
    dsimp only
    rw [if_neg (fun hcond => n4 hcond.1), d4]
    dsimp only
    rw [ih, Option.map_some']
    have e1 : a / 4 * 4 + (a % 4 * 16 + b / 16) / 16 = a := by omega
    have e2 : (a % 4 * 16 + b / 16) % 16 * 16 + (b % 16 * 4 + c / 64) / 4 = b := by omega
    have e3 : (b % 16 * 4 + c / 64) % 4 * 64 + c % 64 = c := by omega
    rw [e1, e2, e3]

/-- `fix_padding` is the identity on strings of length divisible by four. -/
theorem fix_padding_id (s : Str) (h : s.length % 4 = 0) : fix_padding s = s := by
  unfold fix_padding
  rw [h]
  simp

/-- The dash/underscore translation fixes a standard encoding. -/
theorem dash_std_encode (bs : List Nat) (h : ∀ x ∈ bs, x < 256) :
    dashUnderscoreToStd (b64std_encode bs) = b64std_encode bs := by
  unfold dashUnderscoreToStd b64std_encode
  rw [List.map_map]
  apply List.map_congr_left
  intro s hs
  exact toStdChar_std ⟨s, bytesToSextets_lt bs h s hs⟩

/-- The dash/underscore translation turns a URL-safe encoding into the
standard encoding of the same bytes. -/
theorem dash_url_encode (bs : List Nat) (h : ∀ x ∈ bs, x < 256) :
    dashUnderscoreToStd (b64url_encode bs) = b64std_encode bs := by
  unfold dashUnderscoreToStd b64url_encode b64std_encode
  rw [List.map_map]
  apply List.map_congr_left
  intro s hs
  exact toStdChar_url ⟨s, bytesToSextets_lt bs h s hs⟩

/-- `b64_decode_try` inverts the padding-stripped standard encoding. -/
theorem b64_decode_try_std (bs : List Nat) (h : ∀ x ∈ bs, x < 256)
    (h3 : bs.length % 3 = 0) : b64_decode_try (b64std_encode bs) = some bs := by
  unfold b64_decode_try
  rw [dash_std_encode bs h,
    fix_padding_id _ (by rw [b64std_encode, List.length_map]; exact bytesToSextets_len4 bs h3),
    decode_encode_std bs h h3]

/-- `b64_decode_try` inverts the padding-stripped URL-safe encoding. -/
theorem b64_decode_try_url (bs : List Nat) (h : ∀ x ∈ bs, x < 256)
    (h3 : bs.length % 3 = 0) : b64_decode_try (b64url_encode bs) = some bs := by
  unfold b64_decode_try
  rw [dash_url_encode bs h,
    fix_padding_id _ (by rw [b64std_encode, List.length_map]; exact bytesToSextets_len4 bs h3),
    decode_encode_std bs h h3]

/-- Every CRC shift step stays below `2^16`. -/
theorem crcShiftBit_lt (c : Nat) : crcShiftBit c < 65536 := by
  unfold crcShiftBit
  split
  · have h2 := Nat.xor_lt_two_pow (n := 16)
      (Nat.and_lt_two_pow (c <<< 1) (show (0xFFFF : Nat) < 2 ^ 16 by norm_num))
      (show (0x1021 : Nat) < 2 ^ 16 by norm_num)
    norm_num at h2
    exact h2
  · have h2 := Nat.and_lt_two_pow (c <<< 1) (show (0xFFFF : Nat) < 2 ^ 16 by norm_num)
    norm_num at h2
    exact h2

theorem crc16_update_lt (c b : Nat) : crc16_update c b < 65536 := by
  unfold crc16_update
  rw [show (8 : Nat) = 7 + 1 from rfl, Function.iterate_succ_apply']
  exact crcShiftBit_lt _

theorem crc16_foldl_lt : ∀ (l : List Nat) (init : Nat), init < 65536 →
    l.foldl crc16_update init < 65536
  | [], _, h => h
  | b :: t, init, _ => by
    rw [List.foldl_cons]
    exact crc16_foldl_lt t (crc16_update init b) (crc16_update_lt init b)

/-- The CRC always fits in 16 bits. -/
theorem crc16_ccitt_lt (data : List Nat) : crc16_ccitt data < 65536 :=
  crc16_foldl_lt data 0 (by norm_num)

theorem parse_encode_aux (tag wcB : Nat) (account : List Nat) (enc : List Nat → Str)
    (htag : tag < 256) (hwcB : wcB < 256) (hlen : account.length = 32)
    (hbytes : ∀ x ∈ account, x < 256)
    (hdecode : ∀ (bs : List Nat), (∀ x ∈ bs, x < 256) → bs.length % 3 = 0 →
      b64_decode_try (enc bs) = some bs) :
    parse_user_friendly (enc (tag :: wcB :: account ++
        [crc16_ccitt (tag :: wcB :: account) / 256,
         crc16_ccitt (tag :: wcB :: account) % 256])) =
      some ((if wcB < 128 then (wcB : Int) else (wcB : Int) - 256), account, true) := by
  have hcrc := crc16_ccitt_lt (tag :: wcB :: account)
  have hflen : (tag :: wcB :: account ++
      [crc16_ccitt (tag :: wcB :: account) / 256,
       crc16_ccitt (tag :: wcB :: account) % 256]).length = 36 := by
    simp [hlen]
  have hfbytes : ∀ x ∈ (tag :: wcB :: account ++
      [crc16_ccitt (tag :: wcB :: account) / 256,
       crc16_ccitt (tag :: wcB :: account) % 256]), x < 256 := by
    intro x hx
    simp only [List.mem_cons, List.mem_append] at hx
    rcases hx with (rfl | rfl | h) | rfl | rfl | h
    exacts [htag, hwcB, hbytes x h, by omega, by omega, absurd h (List.not_mem_nil x)]
  have hdec := hdecode _ hfbytes (by rw [hflen])
  unfold parse_user_friendly
  simp only [hdec]
  rw [if_pos hflen]
  have htake32 : ((account ++ [crc16_ccitt (tag :: wcB :: account) / 256,
      crc16_ccitt (tag :: wcB :: account) % 256]).take 32) = account :=
    List.take_left' hlen
  have hget34 : ((tag :: wcB :: account) ++ [crc16_ccitt (tag :: wcB :: account) / 256,
      crc16_ccitt (tag :: wcB :: account) % 256]).getD 34 0 =
      crc16_ccitt (tag :: wcB :: account) / 256 := by
    rw [List.getD_append_right _ _ _ _ (by simp [hlen])]
    simp [hlen]
  have hget35 : ((tag :: wcB :: account) ++ [crc16_ccitt (tag :: wcB :: account) / 256,
      crc16_ccitt (tag :: wcB :: account) % 256]).getD 35 0 =
      crc16_ccitt (tag :: wcB :: account) % 256 := by
    rw [List.getD_append_right _ _ _ _ (by simp [hlen])]
    simp [hlen]
  have htake34 : List.take 34 ((tag :: wcB :: account) ++
      [crc16_ccitt (tag :: wcB :: account) / 256,
       crc16_ccitt (tag :: wcB :: account) % 256]) = tag :: wcB :: account :=
    List.take_left' (by simp [hlen])
  rw [show ((tag :: wcB :: account ++ [crc16_ccitt (tag :: wcB :: account) / 256,
      crc16_ccitt (tag :: wcB :: account) % 256]).getD 34 0) =
      crc16_ccitt (tag :: wcB :: account) / 256 from hget34]
  rw [show ((tag :: wcB :: account ++ [crc16_ccitt (tag :: wcB :: account) / 256,
      crc16_ccitt (tag :: wcB :: account) % 256]).getD 35 0) =
      crc16_ccitt (tag :: wcB :: account) % 256 from hget35]
  rw [show (tag :: wcB :: account ++ [crc16_ccitt (tag :: wcB :: account) / 256,
      crc16_ccitt (tag :: wcB :: account) % 256]).take 34 = tag :: wcB :: account from htake34]
  rw [show ((tag :: wcB :: account ++ [crc16_ccitt (tag :: wcB :: account) / 256,
      crc16_ccitt (tag :: wcB :: account) % 256]).drop 2) =
      account ++ [crc16_ccitt (tag :: wcB :: account) / 256,
        crc16_ccitt (tag :: wcB :: account) % 256] from rfl]
  rw [htake32]
  rw [show ((tag :: wcB :: account ++ [crc16_ccitt (tag :: wcB :: account) / 256,
      crc16_ccitt (tag :: wcB :: account) % 256]).getD 1 0) = wcB from rfl]
  rw [Nat.div_add_mod']
  simp

/-! ### Claim theorems -/

set_option maxRecDepth 200000

/-- C1: from `payment_confirmed`, a valid `confirm_ownership_transfer` call records the
caller's confirmation flag.  It completes the transaction exactly on the call that sets
the second of the two flags: status becomes `completed` and the listing is marked sold
in the same operation; on a first confirmation the status field is untouched (it stays
`payment_confirmed`) and the listings table is unchanged, so the listing is never sold
while the status is not `completed` nor vice versa. -/
theorem confirm_transfer_completes_exactly_on_second_confirmation
    (db : EscrowDB) (tid : Str) (cid : Int) (role : Str) (now : Nat)
    (tx : EscrowTx) (l : Listing)
    (hfind : findTx db.escrows tid = some tx)
    (hstatus : tx.status = "payment_confirmed".toList)
    (hlist : findListing db.listings tx.listing_id = some l)
    (hrole : (role = "buyer".toList ∧ cid = tx.buyer_id) ∨
             (role = "seller".toList ∧ cid = tx.seller_id)) :
    (confirm_ownership_transfer db tid cid role now).2.success = true ∧
    (role = "buyer".toList →
      (tx.seller_confirmed = true →
        findTx (confirm_ownership_transfer db tid cid role now).1.escrows tid =
          some { tx with buyer_confirmed := true, buyer_confirmed_at := some now,
                         status := "completed".toList, completed_at := some now } ∧
        findListing (confirm_ownership_transfer db tid cid role now).1.listings tx.listing_id =
          some { l with status := "sold".toList, sold_at := some now }) ∧
      (tx.seller_confirmed = false →
        findTx (confirm_ownership_transfer db tid cid role now).1.escrows tid =
          some { tx with buyer_confirmed := true, buyer_confirmed_at := some now } ∧
        (confirm_ownership_transfer db tid cid role now).1.listings = db.listings)) ∧
    (role = "seller".toList →
      (tx.buyer_confirmed = true →
        findTx (confirm_ownership_transfer db tid cid role now).1.escrows tid =
          some { tx with seller_confirmed := true, seller_confirmed_at := some now,
                         status := "completed".toList, completed_at := some now } ∧
        findListing (confirm_ownership_transfer db tid cid role now).1.listings tx.listing_id =
          some { l with status := "sold".toList, sold_at := some now }) ∧
      (tx.buyer_confirmed = false →
        findTx (confirm_ownership_transfer db tid cid role now).1.escrows tid =
          some { tx with seller_confirmed := true, seller_confirmed_at := some now } ∧
        (confirm_ownership_transfer db tid cid role now).1.listings = db.listings)) := by
  have htid := List.find?_some hfind
  have hlid := List.find?_some hlist
  have h1 : ¬(tx.status ≠ "payment_confirmed".toList) := by simp [hstatus]
  have hpres3 : ∀ x : Listing, ((fun x : Listing => if x.listing_id == tx.listing_id then
      { x with status := "sold".toList, sold_at := some now } else x) x).listing_id
        = x.listing_id := by
    intro x; by_cases h : (x.listing_id == tx.listing_id) = true <;> simp [h]
  rcases hrole with ⟨hr, hc⟩ | ⟨hr, hc⟩
  all_goals subst hr
  · -- role = buyer
    have h2 : ¬(True ∧ tx.buyer_id ≠ cid) := fun h => h.2 hc.symm
    have h3 : ¬("buyer".toList = "seller".toList ∧ tx.seller_id ≠ cid) :=
      fun h => absurd h.1 (by decide)
    have hset : setConfirmFlag db.escrows tid "buyer".toList now =
        db.escrows.map (fun t => if t.transaction_id == tid then
          { t with buyer_confirmed := true, buyer_confirmed_at := some now } else t) := by
      rw [setConfirmFlag, if_pos rfl]
    have hpres1 : ∀ t : EscrowTx,
        ((fun t : EscrowTx => if t.transaction_id == tid then
          { t with buyer_confirmed := true, buyer_confirmed_at := some now } else t)
            t).transaction_id = t.transaction_id := by
      intro t; by_cases h : (t.transaction_id == tid) = true <;> simp [h]
    have hpres2 : ∀ t : EscrowTx, ((fun t : EscrowTx => if t.transaction_id == tid then
        { t with status := "completed".toList, completed_at := some now } else t)
          t).transaction_id = t.transaction_id := by
      intro t; by_cases h : (t.transaction_id == tid) = true <;> simp [h]
    have hfind1 : findTx (db.escrows.map (fun t => if t.transaction_id == tid then
        { t with buyer_confirmed := true, buyer_confirmed_at := some now } else t)) tid =
        some { tx with buyer_confirmed := true, buyer_confirmed_at := some now } := by
      rw [findTx_map _ _ _ hpres1, hfind, Option.map_some', if_pos htid]
    cases hsc : tx.seller_confirmed
    · -- first confirmation only
      simp only [confirm_ownership_transfer, hfind, if_neg h1, if_neg h2, if_neg h3, hset,
        hfind1, hsc, Bool.and_false, if_neg Bool.false_ne_true]
      refine ⟨by simp, fun _ => ⟨fun h2c => ?_, fun _ => ⟨?_, ?_⟩⟩, fun hrc => ?_⟩
      · simp at h2c
      · simp [hfind1]
      · simp
      · first
        | exact hrc.elim
        | exact absurd hrc (by decide)
    · -- second confirmation: completion
      simp only [confirm_ownership_transfer, hfind, if_neg h1, if_neg h2, if_neg h3, hset,
        hfind1, hsc, Bool.and_self, release_escrow_funds]
      rw [findTx_map _ _ _ hpres2, hfind1]
      simp only [Option.map_some', htid, if_pos, if_true, eq_self_iff_true, hsc]
      refine ⟨by simp, fun _ => ⟨fun _ => ⟨?_, ?_⟩, fun h2c => ?_⟩, fun hrc => ?_⟩
      · rw [findTx_map _ _ _ hpres2, hfind1, Option.map_some']
        simp [htid, hsc]
      · rw [findListing_map _ _ _ hpres3, hlist, Option.map_some', if_pos hlid]
      · simp at h2c
      · first
        | exact hrc.elim
        | exact absurd hrc (by decide)
  · -- role = seller
    have h2 : ¬("seller".toList = "buyer".toList ∧ tx.buyer_id ≠ cid) :=
      fun h => absurd h.1 (by decide)
    have h3 : ¬(True ∧ tx.seller_id ≠ cid) := fun h => h.2 hc.symm
    have hset : setConfirmFlag db.escrows tid "seller".toList now =
        db.escrows.map (fun t => if t.transaction_id == tid then
          { t with seller_confirmed := true, seller_confirmed_at := some now } else t) := by
      rw [setConfirmFlag, if_neg (by decide)]
    have hpres1 : ∀ t : EscrowTx,
        ((fun t : EscrowTx => if t.transaction_id == tid then
          { t with seller_confirmed := true, seller_confirmed_at := some now } else t)
            t).transaction_id = t.transaction_id := by
      intro t; by_cases h : (t.transaction_id == tid) = true <;> simp [h]
    have hpres2 : ∀ t : EscrowTx, ((fun t : EscrowTx => if t.transaction_id == tid then
        { t with status := "completed".toList, completed_at := some now } else t)
          t).transaction_id = t.transaction_id := by
      intro t; by_cases h : (t.transaction_id == tid) = true <;> simp [h]
    have hfind1 : findTx (db.escrows.map (fun t => if t.transaction_id == tid then
        { t with seller_confirmed := true, seller_confirmed_at := some now } else t)) tid =
        some { tx with seller_confirmed := true, seller_confirmed_at := some now } := by
      rw [findTx_map _ _ _ hpres1, hfind, Option.map_some', if_pos htid]
    cases hbc : tx.buyer_confirmed
    · -- first confirmation only
      simp only [confirm_ownership_transfer, hfind, if_neg h1, if_neg h2, if_neg h3, hset,
        hfind1, hbc, Bool.false_and, if_neg Bool.false_ne_true]
      refine ⟨by simp, fun hrc => ?_, fun _ => ⟨fun h2c => ?_, fun _ => ⟨?_, ?_⟩⟩⟩
      · first
        | exact hrc.elim
        | exact absurd hrc (by decide)
      · simp at h2c
      · simp [hfind1]
      · simp
    · -- second confirmation: completion
      simp only [confirm_ownership_transfer, hfind, if_neg h1, if_neg h2, if_neg h3, hset,
        hfind1, hbc, Bool.true_and, Bool.and_self, release_escrow_funds]
      rw [findTx_map _ _ _ hpres2, hfind1]
      simp only [Option.map_some', htid, if_pos, if_true, eq_self_iff_true, hbc]
      refine ⟨by simp, fun hrc => ?_, fun _ => ⟨fun _ => ⟨?_, ?_⟩, fun h2c => ?_⟩⟩
      · first
        | exact hrc.elim
        | exact absurd hrc (by decide)
      · rw [findTx_map _ _ _ hpres2, hfind1, Option.map_some']
        simp [htid, hbc]
      · rw [findListing_map _ _ _ hpres3, hlist, Option.map_some', if_pos hlid]
      · simp at h2c

/-- C1 witness: on a concrete escrow whose seller has already confirmed, the buyer's
confirmation completes the transaction and sells the listing in the same call. -/
theorem confirm_transfer_completes_witness :
    (confirm_ownership_transfer ⟨[c1tx], [c1listing]⟩ "t1".toList 1 "buyer".toList 50).2.success
        = true ∧
    findTx (confirm_ownership_transfer ⟨[c1tx], [c1listing]⟩ "t1".toList 1 "buyer".toList
        50).1.escrows "t1".toList =
      some { c1tx with buyer_confirmed := true, buyer_confirmed_at := some 50,
                       status := "completed".toList, completed_at := some 50 } ∧
    findListing (confirm_ownership_transfer ⟨[c1tx], [c1listing]⟩ "t1".toList 1 "buyer".toList
        50).1.listings "L1".toList =
      some { c1listing with status := "sold".toList, sold_at := some 50 } := by
  have h := confirm_transfer_completes_exactly_on_second_confirmation
    ⟨[c1tx], [c1listing]⟩ "t1".toList 1 "buyer".toList 50 c1tx c1listing rfl rfl rfl
    (Or.inl ⟨rfl, rfl⟩)
  exact ⟨h.1, ((h.2.1 rfl).1 rfl).1, ((h.2.1 rfl).1 rfl).2⟩

/-- C2: evaluation at the failing input.  The same deposit (hash `h1`, 2 TON, matched
user) is delivered once at time 0, the production monitor restarts two hours later
(`_load_initial_state` rebuilds the processed-hash cache from rows of the last hour
only, so it is empty), and the same transaction is delivered again: the transactions
table still holds exactly one row, but the user's balance is 4 TON — credited twice,
contradicting the exactly-once crediting the claim states. -/
theorem production_redelivery_after_restart_double_credits :
    c2first.transactions.length = 1 ∧
    c2first.balances.map (fun b => b.balance) = [2] ∧
    c2after.transactions.length = 1 ∧
    c2after.balances.map (fun b => b.balance) = [4] := by
  refine ⟨by decide, ?_, by decide, ?_⟩
  · rw [show c2first.balances.map (fun b => b.balance) =
      [((2000000000 : Int) : ℚ) / 1000000000] from rfl]
    norm_num
  · rw [show c2after.balances.map (fun b => b.balance) =
      [((2000000000 : Int) : ℚ) / 1000000000 + ((2000000000 : Int) : ℚ) / 1000000000] from rfl]
    norm_num

/-- C3 (amended): over any polling cycle of the working monitor the checkpoint is
monotonically non-decreasing, and it only ever moves to the logical time of some
observed transaction of the batch — but not necessarily one that was stored: an
observed qualifying transaction advances `last_lt` whether or not a user matched and a
row was inserted (see the counterexample). -/
theorem checkpoint_monotone_and_advances_only_to_observed_lts (st : MonitorState) (txs : List RawTx) :
    (∀ l, st.last_lt = some l →
      ∃ l2, (monitoringCycle st txs).last_lt = some l2 ∧ l ≤ l2) ∧
    ((monitoringCycle st txs).last_lt = st.last_lt ∨
      ∃ tx ∈ txs, (monitoringCycle st txs).last_lt = some tx.lt) := by
  induction txs generalizing st with
  | nil => exact ⟨fun l h => ⟨l, h, le_rfl⟩, Or.inl rfl⟩
  | cons tx rest ih =>
    have hfold : monitoringCycle st (tx :: rest) =
        monitoringCycle (processTx WEBSITE_WALLET st tx) rest := rfl
    obtain ⟨ihm, ihadv⟩ := ih (processTx WEBSITE_WALLET st tx)
    rcases processTx_last_lt WEBSITE_WALLET st tx with h1 | ⟨h1, hmax⟩
    · refine ⟨fun l hl => ?_, ?_⟩
      · obtain ⟨l2, hl2, hle⟩ := ihm l (by rw [h1]; exact hl)
        exact ⟨l2, by rw [hfold]; exact hl2, hle⟩
      · rcases ihadv with h2 | ⟨tx2, htx2, h2⟩
        · exact Or.inl (by rw [hfold, h2, h1])
        · exact Or.inr ⟨tx2, List.mem_cons_of_mem _ htx2, by rw [hfold]; exact h2⟩
    · refine ⟨fun l hl => ?_, ?_⟩
      · obtain ⟨l2, hl2, hle2⟩ := ihm tx.lt h1
        exact ⟨l2, by rw [hfold]; exact hl2, le_trans (hmax l hl) hle2⟩
      · rcases ihadv with h2 | ⟨tx2, htx2, h2⟩
        · exact Or.inr ⟨tx, List.mem_cons_self _ _, by rw [hfold, h2]; exact h1⟩
        · exact Or.inr ⟨tx2, List.mem_cons_of_mem _ htx2, by rw [hfold]; exact h2⟩

/-- C3 counterexample: a qualifying deposit (positive value, nonempty sender `S3`,
lt 5) whose sender matches no user is not stored, yet the cycle ends with the
checkpoint advanced to 5 — a qualifying transaction with sequence number ≤ checkpoint
is absent from the store, refuting the claim as stated. -/
theorem checkpoint_advanced_past_unstored_tx_counterexample :
    c3tx.value > 0 ∧ c3tx.source = some "S3".toList ∧
    (monitoringCycle ⟨[], [], [], none⟩ [c3tx]).last_lt = some 5 ∧
    (monitoringCycle ⟨[], [], [], none⟩ [c3tx]).transactions = [] := by decide

/-- C4 (amended): in the production monitor, a deposit whose sender matches no user is
stored with a null owning-user reference and every balance is left unchanged; in the
working monitor's loop, however, such a deposit is dropped — no row is inserted and no
balance changes (only the checkpoint may move). -/
theorem unmatched_deposit_stored_unassigned_in_production (pst : PState) (ptx : PTx) (now : Nat)
    (hnew : pst.transactions.find? (fun r => r.tx_hash == ptx.tx_hash) = none) :
    (p_store_transaction pst ptx none now).transactions =
      pst.transactions ++ [⟨none, ptx.tx_hash, ptx.from_address, ptx.to_address,
        ptx.amount, ptx.fee, ptx.logical_time, now⟩] ∧
    (p_store_transaction pst ptx none now).balances = pst.balances ∧
    ∀ (st : MonitorState) (tx : RawTx),
      tx.in_msg_present = true → tx.source ≠ some [] → 0 < tx.value →
      (get_mainnet_variants (tx.source.getD [])).findSome?
        (fun v => findUserByAddress st.users v) = none →
      (processTx WEBSITE_WALLET st tx).transactions = st.transactions ∧
      (processTx WEBSITE_WALLET st tx).balances = st.balances := by
  refine ⟨?_, ?_, ?_⟩
  · unfold p_store_transaction
    rw [hnew]
    rfl
  · unfold p_store_transaction
    rw [hnew]
    rfl
  · intro st tx hin hsrc hval hnouser
    unfold processTx
    split
    · exact ⟨rfl, rfl⟩
    split
    · exact ⟨rfl, rfl⟩
    split
    · exact ⟨rfl, rfl⟩
    dsimp only
    rw [hnouser]
    exact ⟨rfl, rfl⟩

/-- C4 counterexample: the working monitor's loop, given a qualifying deposit (2 TON,
sender `S4`) matching no user, inserts no transaction row at all — the deposit is
silently dropped rather than stored with a null user reference, refuting the claim as
stated. -/
theorem unmatched_deposit_dropped_by_monitor_counterexample :
    c4tx.value > 0 ∧ c4tx.source = some "S4".toList ∧
    (monitoringCycle ⟨[], [], [], none⟩ [c4tx]).transactions = [] ∧
    (monitoringCycle ⟨[], [], [], none⟩ [c4tx]).balances = [] := by decide

/-- C5 (amended): on input that parses neither as raw `workchain:hex` nor as a 36-byte
user-friendly encoding, `get_mainnet_variants` does not fail with an error: it returns
the singleton list containing the literal input as a fallback. -/
theorem malformed_address_returns_literal_singleton (address : Str)
    (hraw : parse_raw address = none)
    (huf : parse_user_friendly address = none) :
    get_mainnet_variants address = [address] := by
  unfold get_mainnet_variants
  split
  · rw [hraw]
  · rw [huf]
    rfl

/-- C5 witness: the malformed input `xyz` yields the singleton fallback `[xyz]`. -/
theorem malformed_address_returns_literal_singleton_witness : get_mainnet_variants "xyz".toList = ["xyz".toList] :=
  malformed_address_returns_literal_singleton "xyz".toList (by decide) (by decide)

/-- C5 counterexample: `xyz` is malformed — it base64-decodes to 2 bytes, not 36, and
is not raw form — yet `get_mainnet_variants` returns `[xyz]` instead of failing with a
`MalformedAddress` error, refuting the claim as stated. -/
theorem malformed_address_singleton_fallback_counterexample :
    b64_decode_try "xyz".toList = some [199, 44] ∧
    parse_user_friendly "xyz".toList = none ∧
    parse_raw "xyz".toList = none ∧
    get_mainnet_variants "xyz".toList = ["xyz".toList] := by decide

/-- C6: for every workchain byte (signed, −128 ≤ wc < 128), 32-byte account id and
flag combination, decoding either text form produced by `build_friendly` (standard or
URL-safe base64) with `parse_user_friendly` recovers the original workchain and account
id, and the embedded big-endian 2-byte checksum validates against the CRC-16
(polynomial 0x1021, initial value 0, no reflection) of the preceding 34 bytes — the
returned validity flag is `true`. -/
theorem friendly_address_roundtrip (wc : Int) (account : List Nat) (bounceable testnet : Bool)
    (hwc1 : -128 ≤ wc) (hwc2 : wc < 128)
    (hlen : account.length = 32) (hbytes : ∀ x ∈ account, x < 256) :
    parse_user_friendly (build_friendly wc account bounceable testnet).1 =
      some (wc, account, true) ∧
    parse_user_friendly (build_friendly wc account bounceable testnet).2 =
      some (wc, account, true) := by
  have htag : ((if bounceable then 0x11 else 0x51) |||
      (if testnet then 0x80 else 0) : Nat) < 256 := by
    cases bounceable <;> cases testnet <;> decide
  have hm0 : (0 : Int) ≤ wc % 256 := Int.emod_nonneg wc (by norm_num)
  have hm1 : wc % 256 < 256 := Int.emod_lt_of_pos wc (by norm_num)
  have hwcB : (wc % 256).toNat < 256 := by omega
  have hcast : ((wc % 256).toNat : Int) = wc % 256 := Int.toNat_of_nonneg hm0
  have hwcrec : (if (wc % 256).toNat < 128 then ((wc % 256).toNat : Int)
      else ((wc % 256).toNat : Int) - 256) = wc := by
    split <;> omega
  have h1 := parse_encode_aux ((if bounceable then 0x11 else 0x51) |||
    (if testnet then 0x80 else 0)) (wc % 256).toNat account b64std_encode htag hwcB hlen
    hbytes b64_decode_try_std
  have h2 := parse_encode_aux ((if bounceable then 0x11 else 0x51) |||
    (if testnet then 0x80 else 0)) (wc % 256).toNat account b64url_encode htag hwcB hlen
    hbytes b64_decode_try_url
  rw [hwcrec] at h1 h2
  exact ⟨h1, h2⟩

/-- C7 (amended): `create_user_with_wallet` is idempotent exactly when the presented
string matches one of an existing user's five stored address columns: it then returns
that user's id and stored addresses and leaves the state unchanged.  Presented in an
equivalent encoding that is not among the five columns (raw or testnet form), the
lookup misses and a duplicate user with an overlapping variant set is created (see the
counterexample). -/
theorem create_user_idempotent_on_stored_columns (st : MonitorState) (addr : Str) (tid? : Option Str) (u : MUser)
    (hfind : st.users.find? (fun x => userMatches x addr) = some u) :
    create_user_with_wallet st addr tid? =
      (st, ⟨u.id, u.telegram_id, u.main_wallet_address, u.variant_address_1,
        u.variant_address_2, u.variant_address_3, u.variant_address_4, true⟩) := by
  unfold create_user_with_wallet
  rw [hfind]

/-- C7 witness: re-presenting the exact stored main address returns the existing user
and inserts nothing. -/
theorem create_user_idempotent_on_stored_columns_witness :
    create_user_with_wallet c7st1 c7friendly none =
      (c7st1, ⟨c7u1.id, c7u1.telegram_id, c7u1.main_wallet_address, c7u1.variant_address_1,
        c7u1.variant_address_2, c7u1.variant_address_3, c7u1.variant_address_4, true⟩) :=
  create_user_idempotent_on_stored_columns c7st1 c7friendly none c7u1 (by decide)

/-- C7 counterexample: a user is created from the bounceable-mainnet form of an
account; calling `create_user_with_wallet` again with the raw `0:hex` encoding of the
same account (an equivalent encoding, as both parses witness) inserts a second user row
whose variant set overlaps the first user's, refuting idempotence and the
no-overlapping-variants invariant as claimed. -/
theorem create_user_duplicate_for_equivalent_encoding_counterexample :
    parse_raw c7raw = some (0, c7zero) ∧
    parse_user_friendly c7friendly = some (0, c7zero, true) ∧
    c7st1.users.length = 1 ∧
    c7st2.users.length = 2 ∧
    c7st2.users.map (fun u => u.variant_address_1) = [c7friendly, c7friendly] := by decide

/-- C8: `handle_timeout_refund` transitions a transaction to `refunded` exactly when
its status is `pending_payment` or `payment_confirmed` and the deadline has passed
(`timeout_at < now`); in every other case it fails with the not-eligible-for-refund
error and leaves the database unchanged. -/
theorem timeout_reap_refunds_exactly_when_eligible
    (db : EscrowDB) (tid : Str) (now : Nat) (tx : EscrowTx)
    (hfind : findTx db.escrows tid = some tx)
    (huniq : ∀ t ∈ db.escrows, t.transaction_id = tid → t = tx) :
    ((tx.status = "pending_payment".toList ∨ tx.status = "payment_confirmed".toList) ∧
        tx.timeout_at < now →
      (handle_timeout_refund db tid now).2.success = true ∧
      findTx (handle_timeout_refund db tid now).1.escrows tid =
        some { tx with status := "refunded".toList, refunded_at := some now }) ∧
    (¬((tx.status = "pending_payment".toList ∨ tx.status = "payment_confirmed".toList) ∧
        tx.timeout_at < now) →
      (handle_timeout_refund db tid now).2 =
        ⟨false, "Transaction not eligible for refund".toList⟩ ∧
      (handle_timeout_refund db tid now).1 = db) := by
  have htid := List.find?_some hfind
  have htxmem : tx ∈ db.escrows := List.mem_of_find?_eq_some hfind
  constructor
  · rintro ⟨hst, htime⟩
    have hel : (tx.transaction_id == tid &&
        (tx.status == "pending_payment".toList || tx.status == "payment_confirmed".toList) &&
        decide (tx.timeout_at < now)) = true := by
      rcases hst with h | h <;> simp [htid, h, htime]
    have hpos : 0 < (db.escrows.filter (fun t => t.transaction_id == tid &&
        (t.status == "pending_payment".toList || t.status == "payment_confirmed".toList) &&
        decide (t.timeout_at < now))).length :=
      List.length_pos.2 (List.ne_nil_of_mem (List.mem_filter.2 ⟨htxmem, hel⟩))
    have hpres : ∀ t : EscrowTx, ((fun t : EscrowTx =>
        if t.transaction_id == tid &&
            (t.status == "pending_payment".toList || t.status == "payment_confirmed".toList) &&
            decide (t.timeout_at < now) then
          { t with status := "refunded".toList, refunded_at := some now } else t)
          t).transaction_id = t.transaction_id := by
      intro t; dsimp only; split <;> rfl
    simp only [handle_timeout_refund, if_pos hpos]
    refine ⟨by simp, ?_⟩
    rw [findTx_map _ _ _ hpres, hfind, Option.map_some', if_pos hel]
  · intro hnot
    have hzero : (db.escrows.filter (fun t => t.transaction_id == tid &&
        (t.status == "pending_payment".toList || t.status == "payment_confirmed".toList) &&
        decide (t.timeout_at < now))).length = 0 := by
      rw [List.length_eq_zero, List.filter_eq_nil_iff]
      intro t ht
      by_cases hid : t.transaction_id = tid
      · rw [huniq t ht hid]
        intro hcontra
        simp only [Bool.and_eq_true, beq_iff_eq, Bool.or_eq_true, decide_eq_true_eq] at hcontra
        exact hnot ⟨hcontra.1.2, hcontra.2⟩
      · simp [hid]
    simp only [handle_timeout_refund, hzero, if_neg (lt_irrefl 0)]
    exact ⟨by simp, by simp⟩

/-- C8 witness: a pending transaction past its deadline is refunded; the same
transaction before the deadline is rejected as not eligible. -/
theorem timeout_reap_witness :
    (handle_timeout_refund ⟨[c8tx], []⟩ "t8".toList 200).2.success = true ∧
    findTx (handle_timeout_refund ⟨[c8tx], []⟩ "t8".toList 200).1.escrows "t8".toList =
      some { c8tx with status := "refunded".toList, refunded_at := some 200 } ∧
    (handle_timeout_refund ⟨[c8tx], []⟩ "t8".toList 100).2 =
      ⟨false, "Transaction not eligible for refund".toList⟩ := by
  have h1 := timeout_reap_refunds_exactly_when_eligible ⟨[c8tx], []⟩ "t8".toList 200 c8tx rfl
    (by intro t ht _; rw [List.mem_singleton] at ht; exact ht)
  have h2 := timeout_reap_refunds_exactly_when_eligible ⟨[c8tx], []⟩ "t8".toList 100 c8tx rfl
    (by intro t ht _; rw [List.mem_singleton] at ht; exact ht)
  refine ⟨(h1.1 ⟨Or.inl rfl, by decide⟩).1, (h1.1 ⟨Or.inl rfl, by decide⟩).2,
    (h2.2 ?_).1⟩
  rintro ⟨-, hlt⟩
  exact absurd hlt (by decide)

/-- C9 (amended): the working monitor ignores entirely — no row, no balance change, no
state change at all — any observed transaction with a falsy `in_msg`, an empty-string
sender, or a non-positive value; the production monitor likewise ignores non-positive
values, but it does not filter empty or absent senders (see the counterexample). -/
theorem nonpositive_value_and_empty_sender_handling (st : MonitorState) (tx : RawTx) (pst : PState) (tx2 : RawTx)
    (d : Str) (now : Nat)
    (h : tx.in_msg_present = false ∨ tx.source = some [] ∨ tx.value ≤ 0)
    (h2 : tx2.value ≤ 0) :
    processTx WEBSITE_WALLET st tx = st ∧ p_monitor_step d now pst tx2 = pst := by
  constructor
  · unfold processTx
    split
    · rfl
    split
    · rfl
    split
    · rfl
    rename_i hc1 hc2 hc3
    exfalso
    rcases h with hin | hsrc | hval
    · exact hc2 (by rw [hin]; rfl)
    · exact hc2 (by rw [hsrc]; simp)
    · exact hc3 hval
  · have hp : p_process_transaction pst tx2 d = (pst, none) := by
      unfold p_process_transaction
      rcases htx2 : tx2.hash with _ | hh
      · rfl
      · dsimp only
        split
        · rfl
        split
        · rfl
        split
        · rfl
        rw [if_pos (Or.inr h2)]
    unfold p_monitor_step
    rw [hp]

/-- C9 counterexample: a deposit with an absent sender field and positive value is not
ignored by the production monitor — `_process_transaction` turns the missing key into
an empty string and a transaction row with empty `from_address` is inserted, refuting
the claim as stated. -/
theorem empty_sender_deposit_stored_by_production_counterexample :
    c9tx.source = none ∧ c9tx.value > 0 ∧
    (p_perform_monitoring_check "DEP9".toList 0 ⟨[], [], [], [], 0⟩ [c9tx]).transactions.length
      = 1 ∧
    (p_perform_monitoring_check "DEP9".toList 0 ⟨[], [], [], [], 0⟩
      [c9tx]).transactions.map (fun r => r.from_address) = [[]] := by decide

/-- C10: a `confirm_ownership_transfer` call on a `payment_confirmed` transaction with
a role string that is neither `buyer` nor `seller` is not rejected: both identity
checks are bypassed, the call succeeds, and the `else` branch of the update records a
seller confirmation (`seller_confirmed` becomes set) for an arbitrary caller id. -/
theorem confirm_transfer_unknown_role_records_seller_confirmation
    (db : EscrowDB) (tid : Str) (cid : Int) (role : Str) (now : Nat) (tx : EscrowTx)
    (hfind : findTx db.escrows tid = some tx)
    (hstatus : tx.status = "payment_confirmed".toList)
    (hrb : role ≠ "buyer".toList) (hrs : role ≠ "seller".toList) :
    (confirm_ownership_transfer db tid cid role now).2.success = true ∧
    ((findTx (confirm_ownership_transfer db tid cid role now).1.escrows tid).map
      (fun t => t.seller_confirmed)) = some true := by
  have htid := List.find?_some hfind
  have h1 : ¬(tx.status ≠ "payment_confirmed".toList) := by simp [hstatus]
  have h2 : ¬(role = "buyer".toList ∧ tx.buyer_id ≠ cid) := fun h => hrb h.1
  have h3 : ¬(role = "seller".toList ∧ tx.seller_id ≠ cid) := fun h => hrs h.1
  have hset : setConfirmFlag db.escrows tid role now =
      db.escrows.map (fun t => if t.transaction_id == tid then
        { t with seller_confirmed := true, seller_confirmed_at := some now } else t) := by
    rw [setConfirmFlag, if_neg hrb]
  have hpres1 : ∀ t : EscrowTx,
      ((fun t : EscrowTx => if t.transaction_id == tid then
        { t with seller_confirmed := true, seller_confirmed_at := some now } else t)
          t).transaction_id = t.transaction_id := by
    intro t; by_cases h : (t.transaction_id == tid) = true <;> simp [h]
  have hpres2 : ∀ t : EscrowTx, ((fun t : EscrowTx => if t.transaction_id == tid then
      { t with status := "completed".toList, completed_at := some now } else t)
        t).transaction_id = t.transaction_id := by
    intro t; by_cases h : (t.transaction_id == tid) = true <;> simp [h]
  have hfind1 : findTx (db.escrows.map (fun t => if t.transaction_id == tid then
      { t with seller_confirmed := true, seller_confirmed_at := some now } else t)) tid =
      some { tx with seller_confirmed := true, seller_confirmed_at := some now } := by
    rw [findTx_map _ _ _ hpres1, hfind, Option.map_some', if_pos htid]
  cases hbc : tx.buyer_confirmed
  · simp only [confirm_ownership_transfer, hfind, if_neg h1, if_neg h2, if_neg h3, hset,
      hfind1, hbc, Bool.false_and, if_neg Bool.false_ne_true]
    exact ⟨by simp, by simp [hfind1]⟩
  · simp only [confirm_ownership_transfer, hfind, if_neg h1, if_neg h2, if_neg h3, hset,
      hfind1, hbc, Bool.true_and, if_true, release_escrow_funds]
    refine ⟨by simp, ?_⟩
    rw [findTx_map _ _ _ hpres2, hfind1, Option.map_some']
    simp [htid]

/-- C10 witness: caller id 999 with role `admin` sets `seller_confirmed` on a concrete
escrow. -/
theorem confirm_transfer_unknown_role_witness :
    (confirm_ownership_transfer ⟨[c10tx], []⟩ "t10".toList 999 "admin".toList 42).2.success
        = true ∧
    ((findTx (confirm_ownership_transfer ⟨[c10tx], []⟩ "t10".toList 999 "admin".toList
        42).1.escrows "t10".toList).map (fun t => t.seller_confirmed)) = some true :=
  confirm_transfer_unknown_role_records_seller_confirmation ⟨[c10tx], []⟩ "t10".toList 999
    "admin".toList 42 c10tx rfl rfl (by decide) (by decide)

/-- C3 witness: a cycle over an empty batch keeps a checkpoint of 3 at some value
greater than or equal to 3. -/
theorem checkpoint_monotone_witness :
    ∃ l2, (monitoringCycle ⟨[], [], [], some 3⟩ []).last_lt = some l2 ∧ 3 ≤ l2 :=
  (checkpoint_monotone_and_advances_only_to_observed_lts ⟨[], [], [], some 3⟩ []).1 3 rfl

/-- C4 witness: concrete unmatched deposits through both paths — stored unassigned by
the production store, dropped by the working monitor loop. -/
theorem unmatched_deposit_stored_unassigned_witness :
    (p_store_transaction ⟨[], [], [], [], 0⟩ ⟨"hw4".toList, "SW".toList, "DW".toList, 1, 0, 3⟩
        none 5).transactions =
      [] ++ [⟨none, "hw4".toList, "SW".toList, "DW".toList, 1, 0, 3, 5⟩] ∧
    (p_store_transaction ⟨[], [], [], [], 0⟩ ⟨"hw4".toList, "SW".toList, "DW".toList, 1, 0, 3⟩
        none 5).balances = [] ∧
    (processTx WEBSITE_WALLET ⟨[], [], [], none⟩
        ⟨3, some "hw4".toList, true, some "SW".toList, none, 1000000000, none⟩).transactions
      = [] ∧
    (processTx WEBSITE_WALLET ⟨[], [], [], none⟩
        ⟨3, some "hw4".toList, true, some "SW".toList, none, 1000000000, none⟩).balances
      = [] := by
  have h := unmatched_deposit_stored_unassigned_in_production ⟨[], [], [], [], 0⟩
    ⟨"hw4".toList, "SW".toList, "DW".toList, 1, 0, 3⟩ 5 rfl
  have h2 := h.2.2 ⟨[], [], [], none⟩
    ⟨3, some "hw4".toList, true, some "SW".toList, none, 1000000000, none⟩
    rfl (by decide) (by decide) (by decide)
  exact ⟨h.1, h.2.1, h2.1, h2.2⟩

/-- C6 witness: round trip at workchain 0 and the all-zero account id. -/
theorem friendly_address_roundtrip_witness :
    parse_user_friendly (build_friendly 0 (List.replicate 32 0) true false).1 =
      some (0, List.replicate 32 0, true) ∧
    parse_user_friendly (build_friendly 0 (List.replicate 32 0) true false).2 =
      some (0, List.replicate 32 0, true) :=
  friendly_address_roundtrip 0 (List.replicate 32 0) true false (by norm_num) (by norm_num)
    (by simp) (fun x hx => by rw [List.eq_of_mem_replicate hx]; norm_num)

/-- C9 witness: a zero-value transaction is ignored entirely by both monitors. -/
theorem nonpositive_value_and_empty_sender_handling_witness :
    processTx WEBSITE_WALLET ⟨[], [], [], none⟩
      ⟨4, some "hz".toList, true, some "SZ".toList, none, 0, none⟩ = ⟨[], [], [], none⟩ ∧
    p_monitor_step "DZ".toList 9 ⟨[], [], [], [], 0⟩
      ⟨4, some "hz".toList, true, some "SZ".toList, some "DZ".toList, 0, none⟩ =
      ⟨[], [], [], [], 0⟩ :=
  nonpositive_value_and_empty_sender_handling ⟨[], [], [], none⟩
    ⟨4, some "hz".toList, true, some "SZ".toList, none, 0, none⟩ ⟨[], [], [], [], 0⟩
    ⟨4, some "hz".toList, true, some "SZ".toList, some "DZ".toList, 0, none⟩ "DZ".toList 9
    (Or.inr (Or.inr (by decide))) (by decide)
